import Mathlib

/-!
Shallow embedding of the CTS Inventory/Citation validation engine
(`cts/xml/texts.py` and `cts/xml/inventory.py`).

Python strings are modelled as Lean `String`, Python dicts as insertion-ordered
association lists, XML input as structured records mirroring the tag shapes the
code reads (the `label`/`xpath`/`scope` attributes of a `<citation>` tag and the
children retrieved by `findall` are fields of the corresponding record), and
exceptions as `Except` errors.
-/

/-- Model of Python `haystack.startswith`-style prefix test on char lists. -/
def strStarts : List Char → List Char → Bool
  | [], _ => true
  | _ :: _, [] => false
  | a :: as, b :: bs => a = b && strStarts as bs

/-- Python `old in s` substring test on char lists (the empty string occurs in
every string, as in Python). -/
def containsSub (old : List Char) : List Char → Bool
  | [] => strStarts old []
  | c :: rest => strStarts old (c :: rest) || containsSub old rest

/-- Python `s.replace("", new)`: `new` inserted at every char boundary. -/
def emptyRepl (new : List Char) : List Char → List Char
  | [] => new
  | c :: rest => new ++ c :: emptyRepl new rest

/-- Left-to-right non-overlapping replacement scan of Python `str.replace`
for a non-empty needle; fuel keeps the recursion structural so the kernel
can evaluate it. -/
def replGo (old new : List Char) : Nat → List Char → List Char
  | _, [] => []
  | 0, s => s
  | fuel + 1, c :: rest =>
      if strStarts old (c :: rest) then
        new ++ replGo old new fuel (List.drop (old.length - 1) rest)
      else
        c :: replGo old new fuel rest

/-- Model of Python `haystack.replace(old, new)`. -/
def pyReplace (s old new : String) : String :=
  if old.data.isEmpty then ⟨emptyRepl new.data s.data⟩
  else ⟨replGo old.data new.data s.data.length s.data⟩

/-- `replace_all(haystack, needles)` from `cts/xml/texts.py`: fold
`haystack.replace(i, needles[i])` over the (insertion-ordered) dict. -/
def replace_all (haystack : String) (needles : List (String × String)) : String :=
  needles.foldl (fun h p => pyReplace h p.1 p.2) haystack

example : pyReplace "urn:cts:greekLit:tlg0012.tlg001" "urn:cts:greekLit:" "/data/greek/"
    = "/data/greek/tlg0012.tlg001" := by decide

example : containsSub "ab".data "xaby".data = true := by decide
example : containsSub "ab".data "xay".data = false := by decide

/-- Character class of the compiled pattern `shortcut_namespace` in
`cts/xml/texts.py`: `[a-zA-Z0-9]`. -/
def isAlnum (c : Char) : Bool :=
  (Char.ofNat 97 ≤ c && c ≤ Char.ofNat 122) ||
  (Char.ofNat 65 ≤ c && c ≤ Char.ofNat 90) ||
  (Char.ofNat 48 ≤ c && c ≤ Char.ofNat 57)

/-- Scan of `re.findall` for the pattern `([a-zA-Z0-9]+:)`: collect each
maximal alphanumeric run immediately followed by a colon, left to right,
non-overlapping.  Fuel keeps the recursion structural. -/
def scGo (fuel : Nat) (s : List Char) : List (List Char) :=
  match fuel, s with
  | 0, _ => []
  | _, [] => []
  | f + 1, c :: rest =>
    if isAlnum c then
      let run := c :: rest.takeWhile isAlnum
      match rest.dropWhile isAlnum with
      | ':' :: tail => (run ++ [':']) :: scGo f tail
      | other => scGo f other
    else scGo f rest

/-- `shortcut_namespace.findall(s)` as a list of matched tokens. -/
def shortcutFindall (s : String) : List String :=
  (scGo s.data.length s.data).map (fun l => ⟨l⟩)

example : shortcutFindall "/tei:TEI/tei:body" = ["tei:", "tei:"] := by decide
example : shortcutFindall "/abc/def" = [] := by decide
example : shortcutFindall "\x7bhttp://www.tei-c.org/ns/1.0\x7dTEI" = ["http:"] := by decide

/-- Diagnostic console objects (`Error(...)` values from `cts/shell`, absent
from `src/`); the message format strings of `cts/xml/texts.py` are modelled
structurally by which call site produced them and with which arguments. -/
inductive ConsoleMessage where
  /-- `_testNamespace` "no namespaces shortcuts" message (failure_condition "equal"). -/
  | noShortcut (name : String) (original : String) (level : Nat)
  /-- `_testNamespace` "namespaces shortcuts with no bindings" message (failure_condition "greater"). -/
  | unboundShortcut (name : String) (original : String) (level : Nat)
  /-- `Citation.test`: "Impossible to parse given element". -/
  | parseFailure
  /-- `Citation.test`: "Unable to run xpath {0}". -/
  | unresolvableXPath (xpath : String)
deriving DecidableEq, Repr

/-- Python exceptions that escape the modelled code. -/
inductive PyError where
  /-- `TypeError`: e.g. a keyword argument the callee does not accept. -/
  | typeError
  /-- `ValueError`: raised by `Citation.test` in strict mode on parse failure. -/
  | valueError
deriving DecidableEq, Repr

/-- Modelled from the spec: `NoTitleFound` (the `NoTitleException` class lives
in `cts/xml/errors.py`, which is not under `src/`; per the spec it is the
error raised for a missing title). -/
inductive CTSError where
  | noTitleFound
deriving DecidableEq, Repr

/-- The `failure_condition` parameter of `Citation._testNamespace`. -/
inductive FailureCondition where
  | equal
  | greater
deriving DecidableEq, Repr

/-- The XML content of a `<citation>` tag as read by `Citation.__init__`:
its `label`, `xpath` and `scope` attributes and the optional nested
`<citation>` child found by `_retrieveChildren`. -/
inductive CitationXML where
  | mk (label xpath scope : String) (child : Option CitationXML)

/-- A `Citation` object: attribute fields, its namespace table (dict in
insertion order), its strictness flag, and the optional child Citation. -/
inductive Citation where
  | mk (label xpath scope : String) (namespaces : List (String × String))
       (strict : Bool) (children : Option Citation)

def Citation.label : Citation → String
  | .mk l _ _ _ _ _ => l

def Citation.xpath : Citation → String
  | .mk _ x _ _ _ _ => x

def Citation.scope : Citation → String
  | .mk _ _ s _ _ _ => s

def Citation.namespaces : Citation → List (String × String)
  | .mk _ _ _ ns _ _ => ns

def Citation.strict : Citation → Bool
  | .mk _ _ _ _ st _ => st

def Citation.children : Citation → Option Citation
  | .mk _ _ _ _ _ ch => ch

/-- `Citation.__init__` together with `_retrieveChildren`: the nested child
is built with the same namespace table and the same strict flag. -/
def mkCitation (namespaces : List (String × String)) (strict : Bool) :
    CitationXML → Citation
  | .mk l x s none => .mk l x s namespaces strict none
  | .mk l x s (some c) => .mk l x s namespaces strict (some (mkCitation namespaces strict c))

/-- Number of citation levels in the chain. -/
def Citation.depth : Citation → Nat
  | .mk _ _ _ _ _ none => 1
  | .mk _ _ _ _ _ (some c) => 1 + c.depth

/-- The literal `"@n='?'"` (apostrophes written via their code point). -/
def atNPlaceholder : String := ⟨['@', 'n', '=', Char.ofNat 39, '?', Char.ofNat 39]⟩

/-- Python `xpath.split("/")` (single-character separator). -/
def splitSlash : List Char → List (List Char)
  | [] => [[]]
  | c :: rest =>
    let r := splitSlash rest
    if c = '/' then [] :: r
    else
      match r with
      | [] => [[c]]
      | h :: t => (c :: h) :: t

/-- Python `"/".join(parts)`. -/
def joinSlash : List (List Char) → List Char
  | [] => []
  | [x] => x
  | x :: y :: t => x ++ '/' :: joinSlash (y :: t)

example : joinSlash (splitSlash "/tei:TEI/tei:text/tei:body".data) = "/tei:TEI/tei:text/tei:body".data := by decide

/-- `Citation.full_xpath(removeRoot, string)`: start from `string` if given,
else `scope + xpath`; reduce `@n='?'` to `@n`; optionally strip the root
(`"/".join(["."] + xpath.split("/")[2:])`); then substitute each namespace
entry. -/
def Citation.full_xpath (c : Citation) (removeRoot : Bool) (string : Option String) : String :=
  let xpath := match string with
    | some s => s
    | none => c.scope ++ c.xpath
  let xpath := pyReplace xpath atNPlaceholder "@n"
  let xpath :=
    if removeRoot then ⟨joinSlash (['.'] :: (splitSlash xpath.data).drop 2)⟩
    else xpath
  replace_all xpath c.namespaces

/-- `Citation._testNamespace(name, string, original_string, level, failure_condition)`. -/
def testNamespaceCheck (name : String) (string : String) (original : String)
    (level : Nat) (failure : FailureCondition) : List ConsoleMessage :=
  let matchCount := (shortcutFindall string).length
  if failure = .equal ∧ matchCount = 0 then
    [.noShortcut name original level]
  else if failure = .greater ∧ matchCount > 0 then
    [.unboundShortcut name original level]
  else []

/-- `Citation.testNamespace(level)`: the four independent checks, in order. -/
def Citation.testNamespace (c : Citation) (level : Nat) : List ConsoleMessage :=
  testNamespaceCheck "scope" c.scope c.scope level .equal
    ++ testNamespaceCheck "scope" (c.full_xpath false (some c.scope)) c.scope level .greater
    ++ testNamespaceCheck "xpath" c.xpath c.xpath level .equal
    ++ testNamespaceCheck "xpath" (c.full_xpath false (some c.xpath)) c.xpath level .greater

/-- A parsed target document, abstracted to what `Citation.test` observes of
it: for each path expression, `ElementTree.findall` either raises
(`Except.error`) or returns some number of matched elements. -/
structure XMLDoc where
  findall : String → Except Unit Nat

/-- The `target` argument of `Citation.test`: a falsy value (skips both
branches), or a file whose parse either fails (`none`) or yields a tree. -/
inductive Target where
  | empty
  | file (parsed : Option XMLDoc)

/-- `Citation.test(target, level)` from `cts/xml/texts.py` lines 117-159:
parse the target (lenient parse failure returns `([false], [parseFailure])`,
strict parse failure raises `ValueError`); evaluate this level's root-relative
path, an evaluation error appending `unresolvableXPath` and counting as zero
matches; a positive match appends `true`, zero matches append `false` and
replace the warnings with `testNamespace`; then recurse into the child at
`level+1`, concatenating statuses and warnings; a falsy target yields
`([false], [])`. -/
def Citation.test : Citation → Target → Nat → Except PyError (List Bool × List ConsoleMessage)
  | c@(.mk _ _ _ _ strict children), target, level =>
    match target with
    | .empty => .ok ([false], [])
    | .file none =>
      if strict = false then .ok ([false], [.parseFailure])
      else .error .valueError
    | .file (some xml) =>
      let xpath := c.full_xpath true none
      let (found, warnings) :=
        match xml.findall xpath with
        | .ok n => (n, ([] : List ConsoleMessage))
        | .error _ => (0, [.unresolvableXPath xpath])
      let (status, warnings) :=
        if found > 0 then ([true], warnings)
        else ([false], c.testNamespace level)
      match children with
      | none => .ok (status, warnings)
      | some child =>
        match child.test target (level + 1) with
        | .ok (s, w) => .ok (status ++ s, warnings ++ w)
        | .error e => .error e

/-- Python dict assignment `d[k] = v` on the insertion-ordered association
list model: overwrite in place if the key exists (keys are unique in every
dict built from `[]` by this operation, so replacing the first occurrence is
exact), else append at the end. -/
def dictInsert {α β : Type} [DecidableEq α] : List (α × β) → α → β → List (α × β)
  | [], k, v => [(k, v)]
  | p :: rest, k, v =>
    if p.1 = k then (k, v) :: rest else p :: dictInsert rest k v

/-- Python dict lookup `d.get(k)` / `d[k]` on the insertion-ordered model. -/
def dictGet {α β : Type} [DecidableEq α] : List (α × β) → α → Option β
  | [], _ => none
  | p :: rest, k => if p.1 = k then some p.2 else dictGet rest k

/-- `os.path.basename` for POSIX paths: the part after the last slash. -/
def pyBasename (p : String) : String :=
  ⟨(splitSlash p.data).getLastD []⟩

example : pyBasename "/data/greek/tlg0012.tlg001" = "tlg0012.tlg001" := by decide
example : pyBasename "tlg0012.tlg001" = "tlg0012.tlg001" := by decide

/-- The XML content inside an `<online>` tag as `Document.__init__` reads it:
the `docname` attribute, the `<validate>` tag's `schema` attribute, the
`<namespaceMapping>` children as `(abbreviation, nsURI)` pairs in document
order, and the first `<citation>` under `<citationMapping>`. -/
structure DocumentXML where
  docname : String
  validateSchema : String
  namespaceMappings : List (String × String)
  citation : CitationXML

/-- A `Document` object (`cts/xml/texts.py` lines 162-239). -/
structure Document where
  db : String
  rewriting_rules : List (String × String)
  strict : Bool
  path : String
  filename : String
  validate : String
  namespaces : List (String × String)
  citation : Citation

/-- `Document._retrieveNamespace`: `namespaces[abbr + ":"] = "{" + uri + "}"`
over the `<namespaceMapping>` children in order. -/
def retrieveNamespace (mappings : List (String × String)) : List (String × String) :=
  mappings.foldl (fun d p => dictInsert d (p.1 ++ ":") ("\x7b" ++ p.2 ++ "\x7d")) []

/-- `Document.__init__`: `path = replace_all(db, rewriting_rules)`,
`filename = basename(path)`, the namespace table from the mappings, and the
root `Citation` built with that table and the document's own strict flag. -/
def mkDocument (xml : DocumentXML) (rewriting_rules : List (String × String))
    (strict : Bool) : Document :=
  let db := xml.docname
  let path := replace_all db rewriting_rules
  let namespaces := retrieveNamespace xml.namespaceMappings
  { db := db
    rewriting_rules := rewriting_rules
    strict := strict
    path := path
    filename := pyBasename path
    validate := xml.validateSchema
    namespaces := namespaces
    citation := mkCitation namespaces strict xml.citation }

/-- A file system for opening target paths: `none` models a path whose parse
raises, `some doc` a parseable file. `Citation.test` first checks the
truthiness of the path string itself. -/
def strToTarget (fs : String → Option XMLDoc) (path : String) : Target :=
  if path = "" then .empty else .file (fs path)

/-- `Document.testCitation()`: run `self.citation.test(self.path)` (default
level 1). The real method accepts no keyword arguments beyond `self`. -/
def Document.testCitation (d : Document) (fs : String → Option XMLDoc) :
    Except PyError (List Bool × List ConsoleMessage) :=
  d.citation.test (strToTarget fs d.path) 1

/-- The XML content of an `<edition>` or `<translation>` tag as
`Text.__init__` reads it: `projid`, the `<label>` children (`xml:lang`
attribute — possibly absent, hence `Option` — and text) in document order,
and the `<online>` child. -/
structure TextXML where
  projid : String
  labels : List (Option String × String)
  online : DocumentXML

/-- A `Text` object (`cts/xml/texts.py` lines 242-293); `Edition` and
`Translation` add nothing to it. -/
structure Text where
  id : String
  titles : List (Option String × String)
  strict : Bool
  rewriting_rules : List (String × String)
  document : Document

/-- `_retrieveTitles`: fold the title elements into the (insertion-ordered)
dict keyed by `xml:lang`. -/
def buildTitles (ts : List (Option String × String)) : List (Option String × String) :=
  ts.foldl (fun d p => dictInsert d p.1 p.2) []

/-- `Text.__init__`: retrieve titles (raising `NoTitleFound` if strict and
none), then build the `Document` — with the default `strict=False`, since the
call `Document(xml=..., rewriting_rules=...)` passes no strict argument. -/
def mkText (xml : TextXML) (rewriting_rules : List (String × String))
    (strict : Bool) : Except CTSError Text :=
  let titles := buildTitles xml.labels
  if strict = true ∧ titles.length = 0 then .error .noTitleFound
  else .ok
    { id := xml.projid
      titles := titles
      strict := strict
      rewriting_rules := rewriting_rules
      document := mkDocument xml.online rewriting_rules false }

/-- A Python `for`-loop that appends `f x` for each element, letting the
first raised exception propagate (used by `_retrieveEditions`,
`_retrieveTranslations`, `_retrieveWorks`, `_retrieveTextGroup`). -/
def exceptMapList {α β ε : Type} (f : α → Except ε β) : List α → Except ε (List β)
  | [] => .ok []
  | x :: xs =>
    match f x with
    | .error e => .error e
    | .ok y =>
      match exceptMapList f xs with
      | .error e => .error e
      | .ok ys => .ok (y :: ys)

/-- The XML content of a `<work>` tag as `Work.__init__` reads it. -/
structure WorkXML where
  projid : String
  titles : List (Option String × String)
  editions : List TextXML
  translations : List TextXML

/-- A `Work` object (`cts/xml/inventory.py` lines 9-81). -/
structure Work where
  strict : Bool
  rewriting_rules : List (String × String)
  id : String
  titles : List (Option String × String)
  editions : List Text
  translations : List Text

/-- `Work.__init__`: titles first (raising `NoTitleFound` when strict and
empty), then editions and translations — both built with the explicit
`strict=False` of `_retrieveEditions` / `_retrieveTranslations`. -/
def mkWork (xml : WorkXML) (rewriting_rules : List (String × String))
    (strict : Bool) : Except CTSError Work :=
  let titles := buildTitles xml.titles
  if strict = true ∧ titles.length = 0 then .error .noTitleFound
  else do
    let eds ← exceptMapList (fun e => mkText e rewriting_rules false) xml.editions
    let trs ← exceptMapList (fun t => mkText t rewriting_rules false) xml.translations
    .ok
      { strict := strict
        rewriting_rules := rewriting_rules
        id := xml.projid
        titles := titles
        editions := eds
        translations := trs }

/-- `Work.getTexts()`: `self.editions + self.translations`. -/
def Work.getTexts (w : Work) : List Text :=
  w.editions ++ w.translations

/-- `Work.getTitle(lang)`: default key is `"en"` if present, else `"eng"`,
else the first key; result is `titles.get(lang, titles[defaulttitle])`; an
empty mapping raises `NoTitleFound` (the `IndexError` on `keys[0]` is caught
by the bare `except`). -/
def Work.getTitle (w : Work) (lang : Option String) : Except CTSError String :=
  match w.titles.head? with
  | none => .error .noTitleFound
  | some first =>
    let keysList := w.titles.map (fun p => p.1)
    let defaulttitle :=
      if keysList.any (fun k => k = some "en") then some "en"
      else if keysList.any (fun k => k = some "eng") then some "eng"
      else first.1
    match dictGet w.titles lang with
    | some v => .ok v
    | none =>
      match dictGet w.titles defaulttitle with
      | some v => .ok v
      | none => .error .noTitleFound

/-- The XML content of a `<textgroup>` tag as `TextGroup.__init__` reads it. -/
structure TextGroupXML where
  projid : String
  groupname : String
  works : List WorkXML

/-- A `TextGroup` object (`cts/xml/inventory.py` lines 84-125). -/
structure TextGroup where
  strict : Bool
  rewriting_rules : List (String × String)
  id : String
  name : String
  works : List Work

/-- `TextGroup.__init__`: `_retrieveWorks` builds each `Work` with
`Work(work, rewriting_rules=self.rewriting_rules)` — no strict argument, so
the default `strict=False`. -/
def mkTextGroup (xml : TextGroupXML) (rewriting_rules : List (String × String))
    (strict : Bool) : Except CTSError TextGroup :=
  do
    let ws ← exceptMapList (fun w => mkWork w rewriting_rules false) xml.works
    .ok
      { strict := strict
        rewriting_rules := rewriting_rules
        id := xml.projid
        name := xml.groupname
        works := ws }

/-- The XML content of the inventory root. -/
structure InventoryXML where
  textgroups : List TextGroupXML

/-- An `Inventory` object (`cts/xml/inventory.py` lines 128-194). -/
structure Inventory where
  strict : Bool
  rewriting_rules : List (String × String)
  textGroups : List TextGroup

/-- `Inventory.__init__` / `_retrieveTextGroup`: each group is built with
`TextGroup(xml=group, rewriting_rules=self.rewriting_rules)` — no strict
argument, so the default `strict=False`. -/
def mkInventory (xml : InventoryXML) (rewriting_rules : List (String × String))
    (strict : Bool) : Except CTSError Inventory :=
  do
    let tgs ← exceptMapList (fun g => mkTextGroup g rewriting_rules false) xml.textgroups
    .ok
      { strict := strict
        rewriting_rules := rewriting_rules
        textGroups := tgs }

/-- `Inventory.getTexts(instanceOf)`: nested loops over textgroups and works,
appending each work's editions (when `Edition` is in `instanceOf`), then its
translations (when `Translation` is). -/
def Inventory.getTexts (inv : Inventory) (withEditions withTranslations : Bool) :
    List Text :=
  inv.textGroups.foldl
    (fun docs tg =>
      tg.works.foldl
        (fun docs w =>
          let docs := if withEditions then docs ++ w.editions else docs
          if withTranslations then docs ++ w.translations else docs)
        docs)
    []

/-- `Inventory.testTextsCitation(ignore_replication)`: loop over
`self.getTexts()` appending
`(doc.document.filename, doc.document.testCitation(ignore_replication=ignore_replication))`.
`Document.testCitation` is declared as `def testCitation(self)` — it accepts
no `ignore_replication` keyword — so in Python the very first loop iteration
raises `TypeError`; only an inventory with no texts completes, returning
the empty list. -/
def Inventory.testTextsCitation (inv : Inventory) (ignoreReplication : Bool)
    (fs : String → Option XMLDoc) :
    Except PyError (List (String × (List Bool × List ConsoleMessage))) :=
  match inv.getTexts true true, ignoreReplication, fs with
  | [], _, _ => .ok []
  | _ :: _, _, _ => .error .typeError

/-! ### Auxiliary definitions used by the verification -/

/-- Structural induction principle for `Citation` (nested `Option` child). -/
def citationInd (P : Citation → Prop)
    (base : ∀ l x s ns st, P (.mk l x s ns st none))
    (step : ∀ l x s ns st c, P c → P (.mk l x s ns st (some c))) :
    ∀ c, P c
  | .mk l x s ns st none => base l x s ns st
  | .mk l x s ns st (some c) => step l x s ns st c (citationInd P base step c)

/-- Structural induction principle for `CitationXML`. -/
def citationXMLInd (P : CitationXML → Prop)
    (base : ∀ l x s, P (.mk l x s none))
    (step : ∀ l x s c, P c → P (.mk l x s (some c))) :
    ∀ cx, P cx
  | .mk l x s none => base l x s
  | .mk l x s (some c) => step l x s c (citationXMLInd P base step c)

/-- Every level of the citation chain is lenient (`strict = False`). -/
def Citation.allStrictFalse : Citation → Bool
  | .mk _ _ _ _ st none => st == false
  | .mk _ _ _ _ st (some c) => st == false && c.allStrictFalse

/-- A `Document` and its whole citation chain are lenient. -/
def Document.lenientAll (d : Document) : Bool :=
  d.strict == false && d.citation.allStrictFalse

/-- A `Text`, its `Document` and its citation chain are lenient. -/
def Text.lenientAll (t : Text) : Bool :=
  t.strict == false && t.document.lenientAll

/-- A `Work` and everything beneath it are lenient. -/
def Work.lenientAll (w : Work) : Bool :=
  w.strict == false && w.editions.all Text.lenientAll
    && w.translations.all Text.lenientAll

/-- A `TextGroup` and everything beneath it are lenient. -/
def TextGroup.lenientAll (tg : TextGroup) : Bool :=
  tg.strict == false && tg.works.all Work.lenientAll

/-- `Except.isOk`-style discriminator. -/
def exceptIsOk {ε α : Type} : Except ε α → Bool
  | .ok _ => true
  | .error _ => false

/-- This level's boolean outcome in `Citation.test` on a parsed tree: `true`
iff `findall` on the root-relative path succeeds with at least one match. -/
def levelMatch (c : Citation) (d : XMLDoc) : Bool :=
  match d.findall (c.full_xpath true none) with
  | .ok n => decide (0 < n)
  | .error _ => false

/-- Status list that `Citation.test` should produce on a parsed tree: one
boolean per level, outermost first. -/
def specStatuses : Citation → XMLDoc → List Bool
  | c@(.mk _ _ _ _ _ none), d => [levelMatch c d]
  | c@(.mk _ _ _ _ _ (some child)), d => levelMatch c d :: specStatuses child d

/-- The claim's title-default policy, written from the spec's words: the
`"en"` title if present, else the `"eng"` title, else the first title in
document order. -/
def specDefaultTitle (titles : List (Option String × String)) : Option String :=
  match dictGet titles (some "en") with
  | some v => some v
  | none =>
    match dictGet titles (some "eng") with
    | some v => some v
    | none => titles.head?.map (fun p => p.2)

/-- The claim's title-resolution policy, written from the spec's words: the
title stored under `lang` when present, else the default title. -/
def specTitle (titles : List (Option String × String)) (lang : Option String) :
    Option String :=
  match dictGet titles lang with
  | some v => some v
  | none => specDefaultTitle titles

/-! ### General lemmas about the modelled primitives -/

theorem containsSub_nil_left (s : List Char) : containsSub [] s = true := by
  cases s <;> simp [containsSub, strStarts]

theorem replGo_id (old new : List Char) :
    ∀ (s : List Char) (fuel : Nat), containsSub old s = false →
      replGo old new fuel s = s := by
  intro s
  induction s with
  | nil => intro fuel _; cases fuel <;> rfl
  | cons c rest ih =>
    intro fuel h
    cases fuel with
    | zero => rfl
    | succ f =>
      simp only [containsSub, Bool.or_eq_false_iff] at h
      simp [replGo, h.1, ih f h.2]

theorem pyReplace_id (s old new : String)
    (h : containsSub old.data s.data = false) : pyReplace s old new = s := by
  unfold pyReplace
  rcases hd : old.data with _ | ⟨c, cs⟩
  · rw [hd] at h
    rw [containsSub_nil_left] at h
    exact absurd h (by simp)
  · have hne : old.data.isEmpty = false := by rw [hd]; rfl
    rw [← hd, hne]
    simp only [Bool.false_eq_true, if_false]
    rw [replGo_id old.data new.data s.data s.data.length h]

theorem replace_all_id (db : String) (rules : List (String × String))
    (h : rules.all (fun p => !(containsSub p.1.data db.data)) = true) :
    replace_all db rules = db := by
  induction rules with
  | nil => rfl
  | cons r rest ih =>
    simp only [List.all_cons, Bool.and_eq_true, Bool.not_eq_eq_eq_not,
      Bool.not_true] at h
    have h1 : pyReplace db r.1 r.2 = db := pyReplace_id db r.1 r.2 h.1
    show replace_all (pyReplace db r.1 r.2) rest = db
    rw [h1]
    exact ih (by simp only [List.all_eq_true] at h ⊢; exact fun p hp => h.2 p hp)

theorem dictGet_dictInsert {α β : Type} [DecidableEq α]
    (d : List (α × β)) (k : α) (v : β) (q : α) :
    dictGet (dictInsert d k v) q = if q = k then some v else dictGet d q := by
  induction d with
  | nil =>
    by_cases hq : q = k
    · simp [dictInsert, dictGet, hq]
    · have hk : ¬ (k = q) := fun h => hq h.symm
      simp [dictInsert, dictGet, hq, hk]
  | cons p rest ih =>
    by_cases hp : p.1 = k
    · by_cases hq : q = k
      · simp [dictInsert, dictGet, hp, hq]
      · have : ¬ (k = q) := fun h => hq h.symm
        simp [dictInsert, dictGet, hp, hq, this]
    · by_cases hpq : p.1 = q
      · have : ¬ (q = k) := fun h => hp (h ▸ hpq)
        simp [dictInsert, dictGet, hp, hpq, this]
      · simp [dictInsert, dictGet, hp, hpq, ih]

/-- Value of the last pair with key `k` in the list. -/
def lastAssoc {α β : Type} [DecidableEq α] (k : α) : List (α × β) → Option β
  | [] => none
  | p :: rest =>
    match lastAssoc k rest with
    | some v => some v
    | none => if p.1 = k then some p.2 else none

theorem foldInsert_get {α β : Type} [DecidableEq α] :
    ∀ (ts : List (α × β)) (d : List (α × β)) (k : α),
    dictGet (ts.foldl (fun d p => dictInsert d p.1 p.2) d) k =
      match lastAssoc k ts with
      | some v => some v
      | none => dictGet d k := by
  intro ts
  induction ts with
  | nil => intro d k; rfl
  | cons p rest ih =>
    intro d k
    show dictGet (rest.foldl (fun d p => dictInsert d p.1 p.2) (dictInsert d p.1 p.2)) k = _
    rw [ih (dictInsert d p.1 p.2) k]
    rcases hl : lastAssoc k rest with _ | v
    · rw [dictGet_dictInsert]
      by_cases hp : p.1 = k
      · rw [if_pos hp.symm]
        simp [lastAssoc, hl, hp]
      · rw [if_neg (fun h => hp h.symm)]
        simp [lastAssoc, hl, hp]
    · simp [lastAssoc, hl]

theorem dictGet_buildTitles (ts : List (Option String × String)) (k : Option String) :
    dictGet (buildTitles ts) k =
      match lastAssoc k ts with
      | some v => some v
      | none => none := by
  show dictGet (ts.foldl (fun d p => dictInsert d p.1 p.2) []) k = _
  rw [foldInsert_get ts [] k]
  rcases lastAssoc k ts <;> rfl

theorem any_keys_eq_isSome {α β : Type} [DecidableEq α]
    (l : List (α × β)) (k : α) :
    ((l.map (fun p => p.1)).any (fun x => x = k)) = (dictGet l k).isSome := by
  induction l with
  | nil => rfl
  | cons p rest ih =>
    by_cases hp : p.1 = k
    · simp [dictGet, hp]
    · simp [dictGet, hp, ih]

theorem exceptMapList_all {α β ε : Type} {f : α → Except ε β} {p : β → Bool} :
    ∀ {l : List α} {ys : List β}, exceptMapList f l = .ok ys →
      (∀ x y, f x = .ok y → p y = true) → ys.all p = true := by
  intro l
  induction l with
  | nil =>
    intro ys h _
    simp only [exceptMapList] at h
    cases h
    rfl
  | cons x xs ih =>
    intro ys h hf
    simp only [exceptMapList] at h
    rcases hx : f x with e | y <;> rw [hx] at h
    · cases h
    · rcases hrest : exceptMapList f xs with e | ys' <;> rw [hrest] at h
      · cases h
      · cases h
        simp [List.all_cons, hf x y hx, ih hrest hf]

theorem exceptMapList_isOk {α β ε : Type} {f : α → Except ε β}
    (hf : ∀ x, exceptIsOk (f x) = true) :
    ∀ (l : List α), exceptIsOk (exceptMapList f l) = true := by
  intro l
  induction l with
  | nil => rfl
  | cons x xs ih =>
    simp only [exceptMapList]
    rcases hx : f x with e | y
    · have := hf x; rw [hx] at this; exact absurd this (by simp [exceptIsOk])
    · rcases hrest : exceptMapList f xs with e | ys
      · rw [hrest] at ih; exact absurd ih (by simp [exceptIsOk])
      · rfl

/-! ### Lemmas about the constructors -/

theorem mkCitation_allStrictFalse (ns : List (String × String)) :
    ∀ cx : CitationXML, (mkCitation ns false cx).allStrictFalse = true := by
  refine citationXMLInd _ ?_ ?_
  · intro l x s
    rfl
  · intro l x s c ih
    simp [mkCitation, Citation.allStrictFalse, ih]

theorem mkDocument_lenientAll (xml : DocumentXML) (rules : List (String × String)) :
    (mkDocument xml rules false).lenientAll = true := by
  simp [mkDocument, Document.lenientAll, mkCitation_allStrictFalse]

theorem mkText_false_ok (xml : TextXML) (rules : List (String × String)) :
    mkText xml rules false =
      .ok { id := xml.projid
            titles := buildTitles xml.labels
            strict := false
            rewriting_rules := rules
            document := mkDocument xml.online rules false } := by
  simp [mkText]

theorem mkText_lenientAll (xml : TextXML) (rules : List (String × String))
    (t : Text) (h : mkText xml rules false = .ok t) : t.lenientAll = true := by
  rw [mkText_false_ok] at h
  cases h
  simp [Text.lenientAll, Document.lenientAll, mkDocument, mkCitation_allStrictFalse]

theorem mkWork_false_inv (xml : WorkXML) (rules : List (String × String))
    (w : Work) (h : mkWork xml rules false = .ok w) :
    w.strict = false ∧ w.titles = buildTitles xml.titles ∧
    exceptMapList (fun e => mkText e rules false) xml.editions = .ok w.editions ∧
    exceptMapList (fun t => mkText t rules false) xml.translations = .ok w.translations := by
  simp only [mkWork, false_and, if_false] at h
  rcases he : exceptMapList (fun e => mkText e rules false) xml.editions with e | eds <;>
    rw [he] at h
  · simp only [bind, Except.bind] at h
    exact Except.noConfusion h
  · rcases ht : exceptMapList (fun t => mkText t rules false) xml.translations with e | trs <;>
      rw [ht] at h
    · simp only [bind, Except.bind] at h
      exact Except.noConfusion h
    · simp only [bind, Except.bind] at h
      cases h
      exact ⟨rfl, rfl, rfl, rfl⟩

theorem mkWork_lenientAll (xml : WorkXML) (rules : List (String × String))
    (w : Work) (h : mkWork xml rules false = .ok w) : w.lenientAll = true := by
  obtain ⟨hs, _, he, ht⟩ := mkWork_false_inv xml rules w h
  have hall1 : w.editions.all Text.lenientAll = true :=
    exceptMapList_all he (fun x y hy => mkText_lenientAll x rules y hy)
  have hall2 : w.translations.all Text.lenientAll = true :=
    exceptMapList_all ht (fun x y hy => mkText_lenientAll x rules y hy)
  simp [Work.lenientAll, hs, hall1, hall2]

theorem mkTextGroup_inv (xml : TextGroupXML) (rules : List (String × String))
    (s : Bool) (tg : TextGroup) (h : mkTextGroup xml rules s = .ok tg) :
    tg.strict = s ∧
    exceptMapList (fun w => mkWork w rules false) xml.works = .ok tg.works := by
  simp only [mkTextGroup] at h
  rcases hw : exceptMapList (fun w => mkWork w rules false) xml.works with e | ws <;>
    rw [hw] at h
  · simp only [bind, Except.bind] at h
    exact Except.noConfusion h
  · simp only [bind, Except.bind] at h
    cases h
    exact ⟨rfl, rfl⟩

theorem mkTextGroup_lenientAll (xml : TextGroupXML) (rules : List (String × String))
    (tg : TextGroup) (h : mkTextGroup xml rules false = .ok tg) :
    tg.lenientAll = true := by
  obtain ⟨hs, hw⟩ := mkTextGroup_inv xml rules false tg h
  have hall : tg.works.all Work.lenientAll = true :=
    exceptMapList_all hw (fun x y hy => mkWork_lenientAll x rules y hy)
  simp [TextGroup.lenientAll, hs, hall]

theorem mkInventory_inv (xml : InventoryXML) (rules : List (String × String))
    (s : Bool) (inv : Inventory) (h : mkInventory xml rules s = .ok inv) :
    inv.strict = s ∧
    exceptMapList (fun g => mkTextGroup g rules false) xml.textgroups = .ok inv.textGroups := by
  simp only [mkInventory] at h
  rcases hg : exceptMapList (fun g => mkTextGroup g rules false) xml.textgroups with e | tgs <;>
    rw [hg] at h
  · simp only [bind, Except.bind] at h
    exact Except.noConfusion h
  · simp only [bind, Except.bind] at h
    cases h
    exact ⟨rfl, rfl⟩

/-! ### Concrete inputs used by witnesses and counterexamples -/

/-- Citation xpath attribute with the counter placeholder, `/tei:div[@n='?']`. -/
def xpBook : String := "/tei:div[" ++ atNPlaceholder ++ "]"

def citX1 : CitationXML := .mk "Book" xpBook "/tei:TEI/tei:text/tei:body" none

def docX1 : DocumentXML :=
  { docname := "data/file1.xml"
    validateSchema := "tei.rng"
    namespaceMappings := [("tei", "http://www.tei-c.org/ns/1.0")]
    citation := citX1 }

def textX1 : TextXML :=
  { projid := "lat1", labels := [(some "en", "Edition One")], online := docX1 }

def workX1 : WorkXML :=
  { projid := "w1", titles := [(some "en", "Work One")]
    editions := [textX1], translations := [] }

def tgX1 : TextGroupXML :=
  { projid := "tg1", groupname := "Author", works := [workX1] }

def invX1 : InventoryXML := { textgroups := [tgX1] }

/-! ### Claims -/

/-- C1: the claim says `testTextsCitation` returns one
`(filename, (status, warnings))` pair per reachable Text, in traversal order.
The code cannot: the loop body calls
`doc.document.testCitation(ignore_replication=ignore_replication)` while
`Document.testCitation` is declared `def testCitation(self)`, so Python
raises `TypeError` on the first document.  This theorem evaluates the model
at an inventory with one TextGroup, one Work and one Edition: the batch test
raises instead of returning the claimed singleton list. -/
theorem C1_testTextsCitation_raises_typeError :
    (mkInventory invX1 [] false).map
      (fun inv => inv.testTextsCitation false (fun _ => none)) =
    .ok (.error .typeError) := by rfl

/-- C2 counterexample: a Citation constructed with `strict=True`, tested
against a target whose parse fails, raises `ValueError` instead of returning
a `(status, warnings)` pair — refuting "never raises ... regardless of the
Citation's strictness flag". -/
theorem C2_counterexample_strict_raises :
    (mkCitation [] true (.mk "Book" xpBook "/tei:TEI" none)).test (.file none) 1
      = .error .valueError := by rfl

/-- C2 (amended): when the Citation (and every level of its chain) is
lenient (`strict=False`), `Citation.test` never raises: for every target and
level it returns a `(status, warnings)` pair.  With `strict=True` an
unparseable target raises `ValueError`. -/
theorem C2_amended_lenient_test_never_raises :
    ∀ (c : Citation) (target : Target) (level : Nat),
      c.allStrictFalse = true → exceptIsOk (c.test target level) = true := by
  refine citationInd
    (fun c => ∀ (target : Target) (level : Nat),
      c.allStrictFalse = true → exceptIsOk (c.test target level) = true) ?_ ?_
  · intro l x s ns st target level h
    have hst : st = false := by
      simpa [Citation.allStrictFalse] using h
    cases target with
    | empty => rfl
    | file p =>
      cases p with
      | none => simp [Citation.test, hst, exceptIsOk]
      | some xml =>
        simp only [Citation.test]
        rcases hf : xml.findall ((Citation.mk l x s ns st none).full_xpath true none) with u | n
        · simp [hf, exceptIsOk]
        · by_cases hn : 0 < n <;> simp [hf, hn, exceptIsOk]
  · intro l x s ns st c ih target level h
    have hst : st = false ∧ c.allStrictFalse = true := by
      simpa [Citation.allStrictFalse, Bool.and_eq_true] using h
    cases target with
    | empty => rfl
    | file p =>
      cases p with
      | none => simp [Citation.test, hst.1, exceptIsOk]
      | some xml =>
        simp only [Citation.test]
        have ihc := ih (.file (some xml)) (level + 1) hst.2
        rcases hc : c.test (.file (some xml)) (level + 1) with e | sw
        · rw [hc] at ihc
          exact absurd ihc (by simp [exceptIsOk])
        · obtain ⟨s1, w1⟩ := sw
          rcases hf : xml.findall ((Citation.mk l x s ns st (some c)).full_xpath true none) with u | n
          · simp [hf, hc, exceptIsOk]
          · by_cases hn : 0 < n <;> simp [hf, hc, hn, exceptIsOk]

/-- A two-level lenient citation chain used as C2's witness input. -/
def citC2w : Citation :=
  mkCitation [("tei:", "\x7bhttp://www.tei-c.org/ns/1.0\x7d")] false
    (.mk "Book" xpBook "/tei:TEI/tei:text/tei:body"
      (some (.mk "Line" "/tei:l[@n]" "/tei:div" none)))

theorem C2_amended_witness :
    citC2w.allStrictFalse = true ∧
    exceptIsOk (citC2w.test (.file none) 1) = true :=
  ⟨by decide, C2_amended_lenient_test_never_raises citC2w (.file none) 1 (by decide)⟩

/-- C3 counterexample: an Inventory built with `strict=True` whose (single)
TextGroup nevertheless carries `strict=False`, because `_retrieveTextGroup`
constructs `TextGroup(xml=group, rewriting_rules=...)` without passing
strict — refuting "every entity it constructs beneath it also carries
strict=True". -/
theorem C3_counterexample_strict_not_inherited :
    (mkInventory invX1 [] true).map
      (fun inv => inv.textGroups.map TextGroup.strict) = .ok [false] := by rfl

/-- C3 (amended): the strictness flag is NOT inherited.  Whatever strict flag
the Inventory is constructed with, every TextGroup, Work, Edition,
Translation, Document and Citation beneath it is constructed with
`strict=False` (the constructors omit the flag or pass `strict=False`
explicitly); only the root Inventory records the given flag. -/
theorem C3_amended_subtree_always_lenient (xml : InventoryXML)
    (rules : List (String × String)) (s : Bool) (inv : Inventory)
    (h : mkInventory xml rules s = .ok inv) :
    inv.strict = s ∧ inv.textGroups.all TextGroup.lenientAll = true := by
  obtain ⟨hs, hg⟩ := mkInventory_inv xml rules s inv h
  exact ⟨hs, exceptMapList_all hg (fun x y hy => mkTextGroup_lenientAll x rules y hy)⟩

def textC3val : Text :=
  { id := "lat1", titles := [(some "en", "Edition One")], strict := false
    rewriting_rules := [], document := mkDocument docX1 [] false }

def workC3val : Work :=
  { strict := false, rewriting_rules := [], id := "w1"
    titles := [(some "en", "Work One")], editions := [textC3val], translations := [] }

def tgC3val : TextGroup :=
  { strict := false, rewriting_rules := [], id := "tg1", name := "Author"
    works := [workC3val] }

def invC3val : Inventory :=
  { strict := true, rewriting_rules := [], textGroups := [tgC3val] }

theorem C3_amended_witness :
    mkInventory invX1 [] true = .ok invC3val ∧
    invC3val.strict = true ∧
    invC3val.textGroups.all TextGroup.lenientAll = true :=
  ⟨by rfl,
   (C3_amended_subtree_always_lenient invX1 [] true invC3val (by rfl)).1,
   (C3_amended_subtree_always_lenient invX1 [] true invC3val (by rfl)).2⟩

/-- Membership characterization of one `_testNamespace` check. -/
theorem mem_testNamespaceCheck_iff (m : ConsoleMessage) (name string original : String)
    (level : Nat) (failure : FailureCondition) :
    m ∈ testNamespaceCheck name string original level failure ↔
      (failure = .equal ∧ (shortcutFindall string).length = 0 ∧
        m = .noShortcut name original level) ∨
      (failure = .greater ∧ 0 < (shortcutFindall string).length ∧
        m = .unboundShortcut name original level) := by
  unfold testNamespaceCheck
  by_cases h1 : failure = .equal ∧ (shortcutFindall string).length = 0
  · obtain ⟨hf, hn⟩ := h1
    simp [hf, hn]
  · rw [if_neg h1]
    by_cases h2 : failure = .greater ∧ 0 < (shortcutFindall string).length
    · obtain ⟨hf, hn⟩ := h2
      rw [if_pos ⟨hf, hn⟩]
      simp [hf, hn, Nat.pos_iff_ne_zero.mp hn]
    · rw [if_neg h2]
      constructor
      · intro hm
        exact absurd hm (List.not_mem_nil m)
      · rintro (⟨hf, hn, _⟩ | ⟨hf, hn, _⟩)
        · exact absurd ⟨hf, hn⟩ h1
        · exact absurd ⟨hf, hn⟩ h2

/-- C4 counterexample: a Citation whose raw scope `/tei:TEI` uses only the
bound prefix `tei:`, yet `testNamespace` emits the unbound-shortcuts warning
for scope — because the substituted braced URI `{http://www.tei-c.org/ns/1.0}`
itself matches the shortcut pattern (`http:`). -/
theorem C4_counterexample_bound_prefix_warns :
    ((shortcutFindall (mkCitation [("tei:", "\x7bhttp://www.tei-c.org/ns/1.0\x7d")] false
        (.mk "Book" xpBook "/tei:TEI" none)).scope).all
      (fun t => [("tei:", "\x7bhttp://www.tei-c.org/ns/1.0\x7d")].any
        (fun p => p.1 = t)) = true) ∧
    (ConsoleMessage.unboundShortcut "scope" "/tei:TEI" 1 ∈
      (mkCitation [("tei:", "\x7bhttp://www.tei-c.org/ns/1.0\x7d")] false
        (.mk "Book" xpBook "/tei:TEI" none)).testNamespace 1) := by
  constructor
  · decide
  · decide

/-- C4 (amended): the unbound-shortcuts warning for `scope` is emitted if and
only if the REWRITTEN scope (`full_xpath(string=scope)`) still contains a
token matching `[a-zA-Z0-9]+:` — binding every used prefix does not guarantee
suppression, because replacement values (braced URIs such as `{http://...}`)
themselves contain such tokens; and the same holds for `xpath`. -/
theorem C4_amended_warning_iff_rewritten_matches (c : Citation) (level : Nat) :
    ((ConsoleMessage.unboundShortcut "scope" c.scope level ∈ c.testNamespace level) ↔
      0 < (shortcutFindall (c.full_xpath false (some c.scope))).length) ∧
    ((ConsoleMessage.unboundShortcut "xpath" c.xpath level ∈ c.testNamespace level) ↔
      0 < (shortcutFindall (c.full_xpath false (some c.xpath))).length) := by
  constructor <;>
    simp [Citation.testNamespace, mem_testNamespaceCheck_iff]

/-- The `Nat.decLt` instance at a positive bound is `isTrue`. -/
theorem decLtZero_isTrue {n : Nat} (hn : 0 < n) : Nat.decLt 0 n = isTrue hn :=
  Subsingleton.elim _ _

/-- The `Nat.decLt` instance at a non-positive bound is `isFalse`. -/
theorem decLtZero_isFalse {n : Nat} (hn : ¬ 0 < n) : Nat.decLt 0 n = isFalse hn :=
  Subsingleton.elim _ _

/-- Characterization of `Citation.test` on a successfully parsed target: the
level contributes `true` with no warnings when `findall` returns a positive
match count, and `false` with the `testNamespace` diagnostics otherwise (also
when `findall` raised: the appended unresolvable-xpath warning is overwritten
by line 152 of `cts/xml/texts.py`); a child's statuses and warnings are
appended. -/
theorem test_file_some (c : Citation) (d : XMLDoc) (level : Nat) :
    c.test (.file (some d)) level =
      match c.children with
      | none =>
        .ok (if levelMatch c d then ([true], ([] : List ConsoleMessage))
             else ([false], c.testNamespace level))
      | some child =>
        (child.test (.file (some d)) (level + 1)).map
          (fun r =>
            if levelMatch c d then (true :: r.1, r.2)
            else (false :: r.1, c.testNamespace level ++ r.2)) := by
  rcases c with ⟨l, x, s, ns, st, ch⟩
  cases ch with
  | none =>
    simp only [Citation.test, Citation.children]
    rcases hf : d.findall ((Citation.mk l x s ns st none).full_xpath true none) with u | n
    · have hlm : levelMatch (Citation.mk l x s ns st none) d = false := by
        unfold levelMatch
        rw [hf]
      rw [hlm]
      rfl
    · simp only []
      by_cases hn : 0 < n
      · have hlm : levelMatch (Citation.mk l x s ns st none) d = true := by
          unfold levelMatch
          rw [hf]
          simp [hn]
        rw [hlm, decLtZero_isTrue hn]
        rfl
      · have hlm : levelMatch (Citation.mk l x s ns st none) d = false := by
          unfold levelMatch
          rw [hf]
          simp [hn]
        rw [hlm, decLtZero_isFalse hn]
        rfl
  | some child =>
    simp only [Citation.test, Citation.children]
    rcases hf : d.findall ((Citation.mk l x s ns st (some child)).full_xpath true none) with u | n
    · have hlm : levelMatch (Citation.mk l x s ns st (some child)) d = false := by
        unfold levelMatch
        rw [hf]
      rw [hlm]
      rcases hc : child.test (.file (some d)) (level + 1) with e | sw
      · rfl
      · obtain ⟨s1, w1⟩ := sw
        rfl
    · simp only []
      by_cases hn : 0 < n
      · have hlm : levelMatch (Citation.mk l x s ns st (some child)) d = true := by
          unfold levelMatch
          rw [hf]
          simp [hn]
        rw [hlm, decLtZero_isTrue hn]
        rcases hc : child.test (.file (some d)) (level + 1) with e | sw
        · rfl
        · obtain ⟨s1, w1⟩ := sw
          rfl
      · have hlm : levelMatch (Citation.mk l x s ns st (some child)) d = false := by
          unfold levelMatch
          rw [hf]
          simp [hn]
        rw [hlm, decLtZero_isFalse hn]
        rcases hc : child.test (.file (some d)) (level + 1) with e | sw
        · rfl
        · obtain ⟨s1, w1⟩ := sw
          rfl

/-- C5: on a target whose parse succeeds, `Citation.test` returns one boolean
per citation level, outermost first (`specStatuses`), and the status list's
length equals the chain's depth. -/
theorem C5_status_one_per_level :
    ∀ (c : Citation) (d : XMLDoc) (level : Nat),
      (c.test (.file (some d)) level).map (fun r => r.1) = .ok (specStatuses c d) ∧
      (specStatuses c d).length = c.depth := by
  refine citationInd
    (fun c => ∀ (d : XMLDoc) (level : Nat),
      (c.test (.file (some d)) level).map (fun r => r.1) = .ok (specStatuses c d) ∧
      (specStatuses c d).length = c.depth) ?_ ?_
  · intro l x s ns st d level
    constructor
    · rw [test_file_some]
      simp only [Citation.children, specStatuses]
      cases hm : levelMatch (Citation.mk l x s ns st none) d <;>
        simp [hm, Except.map]
    · rfl
  · intro l x s ns st c ih d level
    obtain ⟨ih1, ih2⟩ := ih d (level + 1)
    constructor
    · rw [test_file_some]
      simp only [Citation.children, specStatuses]
      rcases hc : c.test (.file (some d)) (level + 1) with e | sw
      · rw [hc] at ih1
        simp [Except.map] at ih1
      · obtain ⟨s1, w1⟩ := sw
        rw [hc] at ih1
        simp only [Except.map, Except.ok.injEq] at ih1
        cases hm : levelMatch (Citation.mk l x s ns st (some c)) d <;>
          simp [hm, Except.map, ih1]
    · simp only [specStatuses, Citation.depth, List.length_cons, ih2]
      omega

/-- C6: when this level's path evaluation yields zero matches — either
`findall` raises (first appending the unresolvable-xpath warning) or returns
an empty result — the level records `false` and its warnings are REPLACED by
`testNamespace`'s output (the unresolvable-xpath warning is superseded);
a child's recursive statuses and warnings are then CONCATENATED onto this
level's. -/
theorem C6_zero_matches_replaces_warnings (c : Citation) (d : XMLDoc) (level : Nat)
    (h : d.findall (c.full_xpath true none) = .error () ∨
         d.findall (c.full_xpath true none) = .ok 0) :
    c.test (.file (some d)) level =
      match c.children with
      | none => .ok ([false], c.testNamespace level)
      | some child =>
        (child.test (.file (some d)) (level + 1)).map
          (fun r => (false :: r.1, c.testNamespace level ++ r.2)) := by
  have hm : levelMatch c d = false := by
    unfold levelMatch
    rcases h with h | h <;> simp [h]
  rw [test_file_some]
  cases hch : c.children with
  | none => simp [hm]
  | some child =>
    rcases hc : child.test (.file (some d)) (level + 1) with e | sw
    · simp [hm, hc, Except.map]
    · obtain ⟨s1, w1⟩ := sw
      simp [hm, hc, Except.map]

/-- A document model whose every path evaluation raises. -/
def docErrC6 : XMLDoc := ⟨fun _ => .error ()⟩

/-- A two-level lenient citation chain used as C6's witness input. -/
def citC6w : Citation :=
  mkCitation [] false
    (.mk "Book" xpBook "/tei:TEI" (some (.mk "Line" "/tei:l[@n]" "/tei:div" none)))

theorem C6_witness :
    (docErrC6.findall (citC6w.full_xpath true none) = .error () ∨
     docErrC6.findall (citC6w.full_xpath true none) = .ok 0) ∧
    citC6w.test (.file (some docErrC6)) 1 =
      (match citC6w.children with
       | none => .ok ([false], citC6w.testNamespace 1)
       | some child =>
         (child.test (.file (some docErrC6)) (1 + 1)).map
           (fun r => (false :: r.1, citC6w.testNamespace 1 ++ r.2))) :=
  ⟨Or.inl rfl, C6_zero_matches_replaces_warnings citC6w docErrC6 1 (Or.inl rfl)⟩

/-- C7: `Work.getTitle(lang)` returns the title stored under `lang` when
present, else the default title (`"en"` if present, else `"eng"`, else the
first title in document order), whenever the title mapping is non-empty. -/
theorem C7_getTitle_policy (w : Work) (lang : Option String) (h : w.titles ≠ []) :
    w.getTitle lang =
      match specTitle w.titles lang with
      | some v => Except.ok v
      | none => Except.error CTSError.noTitleFound := by
  rcases htit : w.titles with _ | ⟨first, rest⟩
  · exact absurd htit h
  · simp only [Work.getTitle, specTitle, specDefaultTitle, htit, List.head?_cons]
    rcases hg : dictGet (first :: rest) lang with _ | v
    · rcases hen : dictGet (first :: rest) (some "en") with _ | v1
      · rcases heng : dictGet (first :: rest) (some "eng") with _ | v2
        · have hany1 : (((first :: rest).map (fun p => p.1)).any
              (fun k => k = some "en")) = false := by
            rw [any_keys_eq_isSome, hen]
            rfl
          have hany2 : (((first :: rest).map (fun p => p.1)).any
              (fun k => k = some "eng")) = false := by
            rw [any_keys_eq_isSome, heng]
            rfl
          rw [List.map_cons, List.any_cons] at hany1 hany2
          simp [hg, hen, heng, hany1, hany2, dictGet]
        · have hany1 : (((first :: rest).map (fun p => p.1)).any
              (fun k => k = some "en")) = false := by
            rw [any_keys_eq_isSome, hen]
            rfl
          have hany2 : (((first :: rest).map (fun p => p.1)).any
              (fun k => k = some "eng")) = true := by
            rw [any_keys_eq_isSome, heng]
            rfl
          rw [List.map_cons, List.any_cons] at hany1 hany2
          simp [hg, hen, heng, hany1, hany2]
      · have hany1 : (((first :: rest).map (fun p => p.1)).any
            (fun k => k = some "en")) = true := by
          rw [any_keys_eq_isSome, hen]
          rfl
        rw [List.map_cons, List.any_cons] at hany1
        simp [hg, hen, hany1]
    · simp [hg]

/-- A Work with an English and a French title, the claim's example input. -/
def w7 : Work :=
  { strict := false, rewriting_rules := [], id := "w7"
    titles := [(some "en", "A"), (some "fr", "B")], editions := [], translations := [] }

theorem C7_witness :
    w7.titles ≠ [] ∧
    w7.getTitle (some "fr") = .ok "B" ∧
    w7.getTitle (some "de") = .ok "A" ∧
    w7.getTitle none = .ok "A" :=
  ⟨by decide,
   (C7_getTitle_policy w7 (some "fr") (by decide)).trans (by rfl),
   (C7_getTitle_policy w7 (some "de") (by decide)).trans (by rfl),
   (C7_getTitle_policy w7 none (by decide)).trans (by rfl)⟩

/-- C8: constructing a Work from XML with zero title children raises
`NoTitleFound` when strict; when lenient, construction succeeds and every
subsequent `getTitle` call (any language) raises `NoTitleFound`. -/
theorem C8_no_titles (xml : WorkXML) (rules : List (String × String))
    (h : xml.titles = []) :
    mkWork xml rules true = .error .noTitleFound ∧
    exceptIsOk (mkWork xml rules false) = true ∧
    (∀ w, mkWork xml rules false = .ok w →
      ∀ lang, w.getTitle lang = .error .noTitleFound) := by
  have hb : buildTitles xml.titles = [] := by rw [h]; rfl
  refine ⟨?_, ?_, ?_⟩
  · simp [mkWork, hb]
  · simp only [mkWork, hb, List.length_nil, false_and, if_false]
    have hok : ∀ l, exceptIsOk (exceptMapList (fun e => mkText e rules false) l) = true :=
      exceptMapList_isOk (fun x => by rw [mkText_false_ok]; rfl)
    rcases he : exceptMapList (fun e => mkText e rules false) xml.editions with e | eds
    · have := hok xml.editions
      rw [he] at this
      exact absurd this (by simp [exceptIsOk])
    · rcases ht : exceptMapList (fun e => mkText e rules false) xml.translations with e | trs
      · have := hok xml.translations
        rw [ht] at this
        exact absurd this (by simp [exceptIsOk])
      · simp only [bind, Except.bind]
        rfl
  · intro w hw lang
    obtain ⟨_, hwt, _, _⟩ := mkWork_false_inv xml rules w hw
    have htitles : w.titles = [] := hwt.trans hb
    simp [Work.getTitle, htitles]

/-- A `<work>` with no title children, C8's witness input. -/
def workX8 : WorkXML := { projid := "w8", titles := [], editions := [], translations := [] }

/-- The Work that lenient construction yields on `workX8`. -/
def w8val : Work :=
  { strict := false, rewriting_rules := [], id := "w8"
    titles := [], editions := [], translations := [] }

theorem C8_witness :
    workX8.titles = [] ∧
    mkWork workX8 [] true = .error .noTitleFound ∧
    mkWork workX8 [] false = .ok w8val ∧
    w8val.getTitle (some "en") = .error .noTitleFound :=
  ⟨rfl, (C8_no_titles workX8 [] rfl).1, rfl,
   (C8_no_titles workX8 [] rfl).2.2 w8val rfl (some "en")⟩

/-- The `<online>` tag of C9's example document. -/
def docX9 : DocumentXML :=
  { docname := "urn:cts:greekLit:tlg0012.tlg001"
    validateSchema := "tei.rng"
    namespaceMappings := []
    citation := .mk "Book" xpBook "/tei:TEI" none }

/-- C9: a Document's resolved path is the raw `db` with each rewrite rule
applied as a literal substring replacement, in order; the claim's concrete
example; and when no rule key occurs as a substring of `db`, the path equals
`db` unchanged. -/
theorem C9_path_rewrite :
    (∀ (xml : DocumentXML) (rules : List (String × String)) (strict : Bool),
      (mkDocument xml rules strict).path = replace_all xml.docname rules) ∧
    (mkDocument docX9 [("urn:cts:greekLit:", "/data/greek/")] false).path
      = "/data/greek/tlg0012.tlg001" ∧
    (∀ (db : String) (rules : List (String × String)),
      rules.all (fun p => !(containsSub p.1.data db.data)) = true →
      replace_all db rules = db) :=
  ⟨fun _ _ _ => rfl, by rfl, replace_all_id⟩

theorem C9_witness :
    ([("x:", "y")] : List (String × String)).all
      (fun p => !(containsSub p.1.data "abc".data)) = true ∧
    replace_all "abc" [("x:", "y")] = "abc" :=
  ⟨by decide, C9_path_rewrite.2.2 "abc" [("x:", "y")] (by decide)⟩

/-- C10: when a Work's XML has a title element with no `xml:lang` attribute
(the last such element carrying text `txt`), that title is stored under the
key `None`, and `getTitle()` with no language argument returns it directly —
the `None` lookup key matches — bypassing the en/eng/first default policy. -/
theorem C10_none_lang_title (xml : WorkXML) (rules : List (String × String))
    (w : Work) (txt : String)
    (hw : mkWork xml rules false = .ok w)
    (ht : lastAssoc none xml.titles = some txt) :
    dictGet w.titles none = some txt ∧ w.getTitle none = .ok txt := by
  obtain ⟨_, hwt, _, _⟩ := mkWork_false_inv xml rules w hw
  have hget : dictGet w.titles none = some txt := by
    rw [hwt, dictGet_buildTitles, ht]
  refine ⟨hget, ?_⟩
  rcases htit : w.titles with _ | ⟨first, rest⟩
  · rw [htit] at hget
    simp [dictGet] at hget
  · rw [htit] at hget
    simp [Work.getTitle, htit, hget]

/-- A `<work>` whose second title element has no `xml:lang`, C10's witness
input: `getTitle()` returns "X" even though an `"en"` title "A" exists. -/
def workX10 : WorkXML :=
  { projid := "w10", titles := [(some "en", "A"), (none, "X")]
    editions := [], translations := [] }

/-- The Work that lenient construction yields on `workX10`. -/
def w10val : Work :=
  { strict := false, rewriting_rules := [], id := "w10"
    titles := [(some "en", "A"), (none, "X")], editions := [], translations := [] }

theorem C10_witness :
    mkWork workX10 [] false = .ok w10val ∧
    lastAssoc none workX10.titles = some "X" ∧
    dictGet w10val.titles none = some "X" ∧
    w10val.getTitle none = .ok "X" :=
  ⟨rfl, rfl,
   (C10_none_lang_title workX10 [] w10val "X" rfl rfl).1,
   (C10_none_lang_title workX10 [] w10val "X" rfl rfl).2⟩

/-! ### Sanity checks on concrete inputs -/

example :
    (mkInventory ⟨[]⟩ [] false).map
      (fun inv => inv.testTextsCitation false (fun _ => none)) = .ok (.ok []) := by rfl

example :
    ConsoleMessage.unboundShortcut "scope" "/tei:z" 1 ∉
      (mkCitation [("tei:", "x")] false (.mk "b" "/tei:y" "/tei:z" none)).testNamespace 1 := by
  decide

example : citC6w.depth = 2 := by decide

example :
    citC6w.test (.file (some docErrC6)) 1 =
      .ok ([false, false], citC6w.testNamespace 1 ++
        (match citC6w.children with
         | some child => child.testNamespace 2
         | none => [])) := by rfl

example : w10val.getTitle none = .ok "X" := by rfl

example : pyBasename (replace_all "urn:cts:greekLit:tlg0012.tlg001"
    [("urn:cts:greekLit:", "/data/greek/")]) = "tlg0012.tlg001" := by decide
